import Mathlib

/-!
Shallow embedding of `task-sdk/src/airflow/sdk/definitions/param.py`:
the `Param` value holder, the `ParamsDict` collection, the `DagParam`
deferred reference and the `process_params` merge pipeline, together with
theorems settling the specification claims about them.

Python values are modelled by `PyVal`: either a JSON value (`JVal`) or an
opaque non-JSON-serializable object.  The `NOTSET` sentinel is modelled by
`Option.none` on fields of type `Option PyVal` (distinct from JSON null,
which is `PyVal.json JVal.null`).  Python dicts are modelled as
insertion-ordered association lists with the usual dict update semantics
(updating an existing key keeps its position, a new key is appended).
Mutating methods are modelled as functions returning the updated object
together with an `Except` result; an exception raised in Python becomes
`Except.error` carrying a structured error that records the raise site.
-/

namespace Airflow

/-- A JSON value: the serializable fragment of Python values. -/
inductive JVal : Type where
  | null : JVal
  | bool (b : Bool) : JVal
  | num (n : Int) : JVal
  | str (s : String) : JVal
  | arr (xs : List JVal) : JVal
  | obj (kvs : List (String × JVal)) : JVal

/-- A Python value as seen by this module: either JSON-serializable
(`json.dumps` succeeds on it) or an opaque non-serializable object,
identified by a tag so that distinct objects can be told apart. -/
inductive PyVal : Type where
  | json (j : JVal) : PyVal
  | nonSerializable (tag : Nat) : PyVal

/-- The exceptions raised in `param.py`, one constructor per raise site.
`serialization`, `missingValue`, `schemaValidation` and
`invalidInputForParam` are all `ParamValidationError` in the source,
distinguished by their messages; `typeError` is the `TypeError` of the
`deserialize` version gates; `resolution` is the `AirflowException` of
`DagParam.resolve`; `keyError` is a Python `KeyError` on dict access. -/
inductive PError : Type where
  | serialization (v : PyVal) : PError
  | missingValue : PError
  | schemaValidation (msg : String) : PError
  | invalidInputForParam (key : String) (inner : PError) : PError
  | typeError (msg : String) : PError
  | resolution (name : String) : PError
  | keyError (key : String) : PError

/-- Render an error the way Python renders the exception message. -/
def PError.msg : PError → String
  | .serialization _ => "All provided parameters must be json-serializable. The value is not serializable."
  | .missingValue => "No value passed and Param has no default value"
  | .schemaValidation m => m
  | .invalidInputForParam key inner => "Invalid input for param " ++ key ++ ": " ++ inner.msg
  | .typeError m => m
  | .resolution name => "No value could be resolved for parameter " ++ name
  | .keyError key => key

/-- Whether the exception is a `ParamValidationError` (the class caught and
re-raised by `ParamsDict.__setitem__` and `ParamsDict.validate`). -/
def PError.isParamValidationError : PError → Bool
  | .serialization _ => true
  | .missingValue => true
  | .schemaValidation _ => true
  | .invalidInputForParam _ _ => true
  | _ => false

/-- The substring relation on strings, used to state that an error message
mentions a key name. -/
def strContains (s sub : String) : Prop := ∃ a b, s = a ++ sub ++ b

/-- First-match lookup in an association list: Python `d[k]` as an Option. -/
def assocLookup {α : Type} : List (String × α) → String → Option α
  | [], _ => none
  | (k, v) :: rest, key => if k = key then some v else assocLookup rest key

/-- Python dict assignment `d[k] = v`: replace in place if the key exists,
append otherwise. -/
def assocSet {α : Type} : List (String × α) → String → α → List (String × α)
  | [], key, v => [(key, v)]
  | (k, w) :: rest, key, v =>
      if k = key then (key, v) :: rest else (k, w) :: assocSet rest key v

/-- `Param._check_json`: `json.dumps(value)` succeeds exactly on the
JSON-serializable values; otherwise `ParamValidationError` is raised. -/
def checkJson : PyVal → Except PError Unit
  | .json _ => .ok ()
  | .nonSerializable t => .error (.serialization (.nonSerializable t))

/-- The external `jsonschema` validator, as this module calls it:
`validate(value, schema, format_checker=FormatChecker())`, returning the
validation-error message on failure and nothing on success.  The module is
parametric in this function; `specValidator` below is a concrete instance. -/
abbrev Validator : Type := PyVal → JVal → Option String

/-- The JSON type name of a value, as JSON Schema classifies it. -/
def jsonTypeName : JVal → String
  | .null => "null"
  | .bool _ => "boolean"
  | .num _ => "integer"
  | .str _ => "string"
  | .arr _ => "array"
  | .obj _ => "object"

/-- Modelled from the spec: the external JSON-Schema-compatible validation
engine (an external collaborator, not code of this repository).  This
instance implements the fragment the examples need: an absent or empty
schema accepts any JSON-serializable value, and a schema with a "type"
keyword constrains the JSON type of the value. -/
def specValidator : Validator := fun v schema =>
  match schema with
  | .obj kvs =>
      match assocLookup kvs "type" with
      | some (.str t) =>
          match v with
          | .json j => if jsonTypeName j = t then none
                       else some ("value is not of type " ++ t)
          | .nonSerializable _ => some ("value is not of type " ++ t)
      | _ => none
  | _ => none

/-- The `Param` class: a stored value (`none` models `NOTSET`), an optional
description, and a validation schema. -/
structure Param : Type where
  value : Option PyVal
  description : Option String
  schema : JVal

/-- `Param.__version__`. -/
def Param.version : Nat := 1

/-- `Param.__init__(default, description, schema)`: checks the default for
JSON-serializability when it is not `NOTSET`, then stores the fields.  When
no schema keyword is given the schema is the remaining (empty) kwargs dict,
modelled by the default argument `JVal.obj []`. -/
def Param.init (default : Option PyVal) (description : Option String := none)
    (schema : JVal := .obj []) : Except PError Param :=
  match default with
  | some v =>
      match checkJson v with
      | .error e => .error e
      | .ok () => .ok { value := some v, description := description, schema := schema }
  | none => .ok { value := none, description := description, schema := schema }

/-- The body of `Param.resolve` after the initial `_check_json` of the
candidate: compute `final_val`, handle the `NOTSET` case, run schema
validation, and on success memoize `final_val` into the stored value.
Returns the updated object together with the result. -/
def Param.resolveChecked (vd : Validator) (p : Param) (value : Option PyVal)
    (suppress : Bool) : Param × Except PError PyVal :=
  match value.orElse (fun _ => p.value) with
  | none =>
      if suppress then (p, .ok (.json .null)) else (p, .error .missingValue)
  | some finalVal =>
      match vd finalVal p.schema with
      | some m =>
          if suppress then (p, .ok (.json .null))
          else (p, .error (.schemaValidation m))
      | none => ({ p with value := some finalVal }, .ok finalVal)

/-- `Param.resolve(value, suppress_exception)`: check the candidate for
JSON-serializability when one is passed, then run `resolveChecked`. -/
def Param.resolve (vd : Validator) (p : Param) (value : Option PyVal)
    (suppress : Bool) : Param × Except PError PyVal :=
  match value with
  | some v =>
      match checkJson v with
      | .error e => (p, .error e)
      | .ok () => p.resolveChecked vd (some v) suppress
  | none => p.resolveChecked vd none suppress

/-- The payload of `Param.serialize()`: the dict with keys `value`,
`description` and `schema`. -/
structure SerializedParam : Type where
  value : Option PyVal
  description : Option String
  schema : JVal

/-- `Param.serialize()`. -/
def Param.serialize (p : Param) : SerializedParam :=
  { value := p.value, description := p.description, schema := p.schema }

/-- `Param.deserialize(data, version)`: reject versions strictly newer than
`Param.__version__`, then rebuild through the constructor. -/
def Param.deserialize (data : SerializedParam) (version : Nat) : Except PError Param :=
  if version > Param.version then .error (.typeError "serialized version > class version")
  else Param.init data.value data.description data.schema

/-- The `ParamsDict` class: an insertion-ordered dict from names to `Param`
objects, plus the per-instance `suppress_exception` flag. -/
structure ParamsDict : Type where
  dict : List (String × Param)
  suppress_exception : Bool

/-- `ParamsDict.__version__`. -/
def ParamsDict.version : Nat := 1

/-- A value passed to `ParamsDict.__setitem__`: either already a `Param`
object or a plain value. -/
inductive PdValue : Type where
  | param (p : Param) : PdValue
  | plain (v : PyVal) : PdValue

/-- `ParamsDict.__setitem__(key, value)`: a `Param` replaces the entry
wholesale; a plain value on an existing key resolves through that entry
(re-raising any `ParamValidationError` annotated with the key); a plain
value on a fresh key is wrapped in a new schemaless `Param`. -/
def ParamsDict.setItem (vd : Validator) (d : ParamsDict) (key : String)
    (value : PdValue) : ParamsDict × Except PError Unit :=
  match value with
  | .param p => ({ d with dict := assocSet d.dict key p }, .ok ())
  | .plain v =>
      match assocLookup d.dict key with
      | some p =>
          match Param.resolve vd p (some v) d.suppress_exception with
          | (_, .error e) => (d, .error (.invalidInputForParam key e))
          | (p1, .ok _) => ({ d with dict := assocSet d.dict key p1 }, .ok ())
      | none =>
          match Param.init (some v) with
          | .error e => (d, .error e)
          | .ok p => ({ d with dict := assocSet d.dict key p }, .ok ())

/-- `ParamsDict.__getitem__(key)`: fetch the `Param` (a missing key raises
`KeyError`) and resolve it with the instance flag; the resolve memoization
mutates the stored object in place. -/
def ParamsDict.getItem (vd : Validator) (d : ParamsDict) (key : String) :
    ParamsDict × Except PError PyVal :=
  match assocLookup d.dict key with
  | none => (d, .error (.keyError key))
  | some p =>
      match Param.resolve vd p none d.suppress_exception with
      | (p1, r) => ({ d with dict := assocSet d.dict key p1 }, r)

/-- `ParamsDict.get_param(key)`. -/
def ParamsDict.getParam (d : ParamsDict) (key : String) : Except PError Param :=
  match assocLookup d.dict key with
  | none => .error (.keyError key)
  | some p => .ok p

/-- The `ParamsDict` branch of `ParamsDict.update`: `super().update` over
the other instance's internal dict, whose values are `Param` objects, so
every entry takes the wholesale-replace branch of `__setitem__` and the
other dict's `Param` objects are adopted as they are. -/
def ParamsDict.updateParamsDict (d other : ParamsDict) : ParamsDict :=
  { d with dict := other.dict.foldl (fun acc kv => assocSet acc kv.1 kv.2) d.dict }

/-- The plain-mapping branch of `ParamsDict.update`: `super().update`
iterates the mapping in order and assigns through `__setitem__`; the first
exception propagates, keeping the assignments already made. -/
def ParamsDict.updatePlain (vd : Validator) (d : ParamsDict) :
    List (String × PyVal) → ParamsDict × Except PError Unit
  | [] => (d, .ok ())
  | (k, v) :: rest =>
      match d.setItem vd k (.plain v) with
      | (d1, .error e) => (d1, .error e)
      | (d1, .ok ()) => d1.updatePlain vd rest

/-- The argument of `ParamsDict.update`: a single `ParamsDict` positional
argument takes the adopting branch, anything else is a plain mapping. -/
inductive UpdateArg : Type where
  | pd (other : ParamsDict) : UpdateArg
  | plain (m : List (String × PyVal)) : UpdateArg

/-- `ParamsDict.update(...)`: dispatch between the two branches. -/
def ParamsDict.update (vd : Validator) (d : ParamsDict) :
    UpdateArg → ParamsDict × Except PError Unit
  | .pd other => (d.updateParamsDict other, .ok ())
  | .plain m => d.updatePlain vd m

/-- The loop of `ParamsDict.validate()` over the entries in order:
resolve each with the instance flag, stopping at the first
`ParamValidationError`, re-raised annotated with the failing key. -/
def ParamsDict.validateEntries (vd : Validator) (suppress : Bool) :
    List (String × Param) → Except PError (List (String × PyVal))
  | [] => .ok []
  | (k, p) :: rest =>
      match Param.resolve vd p none suppress with
      | (_, .error e) => .error (.invalidInputForParam k e)
      | (_, .ok v) =>
          match validateEntries vd suppress rest with
          | .error e => .error e
          | .ok out => .ok ((k, v) :: out)

/-- `ParamsDict.validate()`: validate and return all entries as a plain
dict. -/
def ParamsDict.validate (vd : Validator) (d : ParamsDict) :
    Except PError (List (String × PyVal)) :=
  ParamsDict.validateEntries vd d.suppress_exception d.dict

/-- `ParamsDict.dump()`: best-effort plain view, resolving every entry with
`suppress_exception=True` (which never raises: no candidate is passed, so
no serializability check runs, and both failure paths return `None`). -/
def ParamsDict.dump (vd : Validator) (d : ParamsDict) : List (String × PyVal) :=
  d.dict.map fun kv =>
    (kv.1, match Param.resolve vd kv.2 none true with
           | (_, .ok v) => v
           | (_, .error _) => .json .null)

/-- `ParamsDict.__init__(dict_obj, suppress_exception)` applied to a plain
mapping: wrap every value in a fresh `Param` (checking
JSON-serializability), keeping order. -/
def ParamsDict.init (m : List (String × PyVal)) (suppress : Bool) :
    Except PError ParamsDict :=
  match m with
  | [] => .ok { dict := [], suppress_exception := suppress }
  | (k, v) :: rest =>
      match Param.init (some v) with
      | .error e => .error e
      | .ok p =>
          match ParamsDict.init rest suppress with
          | .error e => .error e
          | .ok d => .ok { d with dict := (k, p) :: d.dict }

/-- `ParamsDict.deserialize(data, version)`: reject versions strictly newer
than `ParamsDict.__version__`, then rebuild through the constructor with
the default `suppress_exception=False`. -/
def ParamsDict.deserialize (data : List (String × PyVal)) (version : Nat) :
    Except PError ParamsDict :=
  if version > ParamsDict.version then .error (.typeError "serialized version > class version")
  else ParamsDict.init data false

/-- The `DagParam` fields that its `resolve` reads: the bound name and the
default (`none` models `NOTSET`).  The back-reference to the owning DAG is
used only by the constructor registration and serialization, not here. -/
structure DagParam : Type where
  name : String
  default : Option PyVal

/-- The runtime context as `DagParam.resolve` reads it: `conf` is
`context["dag_run"].conf`, with `none` covering both a missing `dag_run`
key (the `KeyError` is suppressed) and a `None` conf; `params` is
`context["params"]`, with `none` for a missing key (suppressed likewise). -/
structure Context : Type where
  conf : Option (List (String × PyVal))
  params : Option (List (String × PyVal))

/-- `DagParam.resolve(context)`: return the dag-run conf entry when the
conf is truthy and has the name (a missing name raises `KeyError`, which is
suppressed and falls through); else the default when it is not `NOTSET`;
else the `context["params"]` entry; else raise `AirflowException`. -/
def DagParam.resolve (dp : DagParam) (ctx : Context) : Except PError PyVal :=
  let rest : Except PError PyVal :=
    match dp.default with
    | some d => .ok d
    | none =>
        match ctx.params.bind (fun ps => assocLookup ps dp.name) with
        | some v => .ok v
        | none => .error (.resolution dp.name)
  match ctx.conf with
  | some conf =>
      if conf.isEmpty then rest
      else
        match assocLookup conf dp.name with
        | some v => .ok v
        | none => rest
  | none => rest

/-- `process_params(dag, task, dagrun_conf, suppress_exception=...)`: start
from an empty `ParamsDict` with the given flag, merge `dag.params`, merge
`task.params` when truthy, merge `dagrun_conf` last when the
`dag_run_conf_overrides_params` configuration flag is set and the conf is
truthy (after `dagrun_conf or getD []`), then validate.  The configuration
flag is passed in explicitly, as the value of
`conf.getboolean("core", "dag_run_conf_overrides_params")`. -/
def process_params (vd : Validator) (dag_params task_params : ParamsDict)
    (dagrun_conf : Option (List (String × PyVal)))
    (dag_run_conf_overrides_params : Bool) (suppress_exception : Bool) :
    Except PError (List (String × PyVal)) :=
  let conf := dagrun_conf.getD []
  let params : ParamsDict := { dict := [], suppress_exception := suppress_exception }
  let params := params.updateParamsDict dag_params
  let params := if task_params.dict.isEmpty then params
                else params.updateParamsDict task_params
  match (if dag_run_conf_overrides_params && !conf.isEmpty
         then params.updatePlain vd conf
         else (params, .ok ())) with
  | (_, .error e) => .error e
  | (params3, .ok ()) => params3.validate vd

/-- The state of the `params` collection in `process_params` after the
`dag.params` and `task.params` merges, before the optional dag-run conf
merge: the first two stages of the pipeline, named so that the precedence
theorems can speak about the intermediate collection. -/
def mergedParams (wf st : ParamsDict) (sup : Bool) : ParamsDict :=
  if st.dict.isEmpty then ParamsDict.updateParamsDict ⟨[], sup⟩ wf
  else ParamsDict.updateParamsDict (ParamsDict.updateParamsDict ⟨[], sup⟩ wf) st

/-! Helper lemmas about the association-list dict model. -/

theorem assocLookup_assocSet_self {α : Type} (l : List (String × α)) (k : String) (v : α) :
    assocLookup (assocSet l k v) k = some v := by
  induction l with
  | nil => simp [assocSet, assocLookup]
  | cons hd tl ih =>
      obtain ⟨k1, w⟩ := hd
      by_cases h : k1 = k
      · simp [assocSet, h, assocLookup]
      · simp [assocSet, h, assocLookup, ih]

theorem assocLookup_assocSet_ne {α : Type} (l : List (String × α)) (k k' : String) (v : α)
    (h : k' ≠ k) : assocLookup (assocSet l k v) k' = assocLookup l k' := by
  induction l with
  | nil => simp [assocSet, assocLookup, Ne.symm h]
  | cons hd tl ih =>
      obtain ⟨k1, w⟩ := hd
      by_cases hk : k1 = k
      · subst hk
        simp [assocSet, assocLookup, Ne.symm h]
      · simp [assocSet, hk, assocLookup, ih]

theorem assocSet_lookup_self {α : Type} (l : List (String × α)) (k : String) (v : α)
    (h : assocLookup l k = some v) : assocSet l k v = l := by
  induction l with
  | nil => simp [assocLookup] at h
  | cons hd tl ih =>
      obtain ⟨k1, w⟩ := hd
      by_cases hk : k1 = k
      · subst hk
        simp [assocLookup] at h
        simp [assocSet, h]
      · simp [assocLookup, hk] at h
        simp [assocSet, hk, ih h]

theorem assocLookup_eq_none_iff {α : Type} (l : List (String × α)) (k : String) :
    assocLookup l k = none ↔ k ∉ l.map Prod.fst := by
  induction l with
  | nil => simp [assocLookup]
  | cons hd tl ih =>
      obtain ⟨k1, w⟩ := hd
      by_cases hk : k1 = k
      · subst hk
        simp [assocLookup]
      · simp [assocLookup, hk, ih, Ne.symm hk]

theorem foldlSet_lookup_notMem {α : Type} (m : List (String × α)) (init : List (String × α))
    (k : String) (h : k ∉ m.map Prod.fst) :
    assocLookup (m.foldl (fun acc kv => assocSet acc kv.1 kv.2) init) k = assocLookup init k := by
  induction m generalizing init with
  | nil => rfl
  | cons hd tl ih =>
      simp only [List.map_cons, List.mem_cons, not_or] at h
      rw [List.foldl_cons, ih (assocSet init hd.1 hd.2) h.2]
      exact assocLookup_assocSet_ne init hd.1 k hd.2 h.1

theorem foldlSet_lookup_mem {α : Type} (m : List (String × α)) (init : List (String × α))
    (k : String) (p : α) (hnd : (m.map Prod.fst).Nodup) (h : assocLookup m k = some p) :
    assocLookup (m.foldl (fun acc kv => assocSet acc kv.1 kv.2) init) k = some p := by
  induction m generalizing init with
  | nil => simp [assocLookup] at h
  | cons hd tl ih =>
      obtain ⟨k1, p1⟩ := hd
      simp only [List.map_cons, List.nodup_cons] at hnd
      by_cases hk : k1 = k
      · subst hk
        have h1 : p1 = p := by simpa [assocLookup] using h
        subst h1
        rw [List.foldl_cons]
        rw [foldlSet_lookup_notMem tl (assocSet init k1 p1) k1 hnd.1]
        exact assocLookup_assocSet_self init k1 p1
      · simp only [assocLookup, if_neg hk] at h
        rw [List.foldl_cons]
        exact ih (assocSet init k1 p1) hnd.2 h

/-! Inversion lemmas for `Param.resolve` and the `ParamsDict` operations. -/

theorem resolve_some_ok_strict (vd : Validator) (p : Param) (v : PyVal) (p1 : Param) (r : PyVal)
    (h : Param.resolve vd p (some v) false = (p1, .ok r)) :
    p1 = { p with value := some v } ∧ r = v ∧ vd v p.schema = none := by
  simp only [Param.resolve] at h
  cases hc : checkJson v with
  | error e => rw [hc] at h; simp at h
  | ok u =>
      cases u
      rw [hc] at h
      simp only [Param.resolveChecked, Option.orElse] at h
      cases hv : vd v p.schema with
      | some m => rw [hv] at h; simp at h
      | none =>
          rw [hv] at h
          simp only [Prod.mk.injEq, Except.ok.injEq] at h
          exact ⟨h.1.symm, h.2.symm, rfl⟩

theorem Param_eta (p : Param) (sv : PyVal) (h : p.value = some sv) :
    { p with value := some sv } = p := by
  cases p with
  | mk val d s => cases h; rfl

theorem resolve_stored_ok_strict (vd : Validator) (p : Param) (sv : PyVal) (q : Param)
    (r : PyVal) (hv : p.value = some sv) (h : Param.resolve vd p none false = (q, .ok r)) :
    r = sv ∧ q = p := by
  simp only [Param.resolve, Param.resolveChecked, Option.orElse] at h
  rw [hv] at h
  simp only [] at h
  cases hs : vd sv p.schema with
  | some m => rw [hs] at h; simp at h
  | none =>
      rw [hs] at h
      injection h with h1 h2
      injection h2 with h2
      exact ⟨h2.symm, h1.symm.trans (Param_eta p sv hv)⟩

theorem init_ok_inv (v : PyVal) (desc : Option String) (schema : JVal) (p : Param)
    (h : Param.init (some v) desc schema = .ok p) :
    p = { value := some v, description := desc, schema := schema } := by
  simp only [Param.init] at h
  split at h
  · simp at h
  · injection h with h1
    exact h1.symm

theorem setItem_suppress (vd : Validator) (d : ParamsDict) (key : String) (x : PdValue)
    (d1 : ParamsDict) (r : Except PError Unit) (h : d.setItem vd key x = (d1, r)) :
    d1.suppress_exception = d.suppress_exception := by
  cases x with
  | param p =>
      simp only [ParamsDict.setItem] at h
      injection h with h1 h2
      subst h1
      rfl
  | plain v =>
      simp only [ParamsDict.setItem] at h
      split at h
      · split at h
        · injection h with h1 h2; subst h1; rfl
        · injection h with h1 h2; subst h1; rfl
      · split at h
        · injection h with h1 h2; subst h1; rfl
        · injection h with h1 h2; subst h1; rfl

theorem setItem_ok_dict (vd : Validator) (d : ParamsDict) (key : String) (x : PdValue)
    (d1 : ParamsDict) (u : Unit) (h : d.setItem vd key x = (d1, .ok u)) :
    ∃ p1, d1.dict = assocSet d.dict key p1 := by
  cases x with
  | param p =>
      simp only [ParamsDict.setItem] at h
      injection h with h1 h2
      subst h1
      exact ⟨p, rfl⟩
  | plain v =>
      simp only [ParamsDict.setItem] at h
      split at h
      · split at h
        · simp at h
        · injection h with h1 h2; subst h1; exact ⟨_, rfl⟩
      · split at h
        · simp at h
        · injection h with h1 h2; subst h1; exact ⟨_, rfl⟩

theorem setItem_plain_ok_strict (vd : Validator) (d : ParamsDict) (key : String) (v : PyVal)
    (d1 : ParamsDict) (u : Unit) (hs : d.suppress_exception = false)
    (h : d.setItem vd key (.plain v) = (d1, .ok u)) :
    ∃ p1, d1.dict = assocSet d.dict key p1 ∧ p1.value = some v := by
  simp only [ParamsDict.setItem] at h
  split at h
  · rename_i p hl
    split at h
    · simp at h
    · rename_i p1 w hr
      rw [hs] at hr
      obtain ⟨hp1, _, _⟩ := resolve_some_ok_strict vd p v p1 w hr
      injection h with h1 h2
      subst h1
      exact ⟨p1, rfl, by rw [hp1]⟩
  · rename_i hl
    split at h
    · simp at h
    · rename_i p hi
      have hp := init_ok_inv v none (.obj []) p hi
      injection h with h1 h2
      subst h1
      exact ⟨p, rfl, by rw [hp]⟩

theorem updatePlain_suppress (vd : Validator) (m : List (String × PyVal)) :
    ∀ d d1 r, ParamsDict.updatePlain vd d m = (d1, r) →
      d1.suppress_exception = d.suppress_exception := by
  induction m with
  | nil =>
      intro d d1 r h
      simp only [ParamsDict.updatePlain] at h
      injection h with h1 h2
      subst h1
      rfl
  | cons hd tl ih =>
      intro d d1 r h
      obtain ⟨k, v⟩ := hd
      simp only [ParamsDict.updatePlain] at h
      split at h
      · rename_i dmid e hset
        injection h with h1 h2
        subst h1
        exact setItem_suppress vd d k (.plain v) dmid (.error e) hset
      · rename_i dmid hset
        exact (ih dmid d1 r h).trans (setItem_suppress vd d k (.plain v) dmid (.ok ()) hset)

theorem updatePlain_ok_notMem (vd : Validator) (m : List (String × PyVal)) :
    ∀ d d1 u, ParamsDict.updatePlain vd d m = (d1, .ok u) →
      ∀ k, k ∉ m.map Prod.fst → assocLookup d1.dict k = assocLookup d.dict k := by
  induction m with
  | nil =>
      intro d d1 u h k _
      simp only [ParamsDict.updatePlain] at h
      injection h with h1 h2
      subst h1
      rfl
  | cons hd tl ih =>
      intro d d1 u h k hk
      obtain ⟨k1, v1⟩ := hd
      simp only [List.map_cons, List.mem_cons, not_or] at hk
      simp only [ParamsDict.updatePlain] at h
      split at h
      · simp at h
      · rename_i dmid hset
        obtain ⟨p1, hdict⟩ := setItem_ok_dict vd d k1 (.plain v1) dmid () hset
        rw [ih dmid d1 u h k hk.2, hdict]
        exact assocLookup_assocSet_ne d.dict k1 k p1 hk.1

theorem updatePlain_ok_lookup_strict (vd : Validator) (m : List (String × PyVal)) :
    ∀ d d1 u, d.suppress_exception = false → (m.map Prod.fst).Nodup →
      ParamsDict.updatePlain vd d m = (d1, .ok u) →
      ∀ k v, assocLookup m k = some v →
        ∃ p1, assocLookup d1.dict k = some p1 ∧ p1.value = some v := by
  induction m with
  | nil =>
      intro d d1 u _ _ _ k v hlook
      simp [assocLookup] at hlook
  | cons hd tl ih =>
      intro d d1 u hs hnd h k v hlook
      obtain ⟨k1, v1⟩ := hd
      simp only [List.map_cons, List.nodup_cons] at hnd
      simp only [ParamsDict.updatePlain] at h
      split at h
      · simp at h
      · rename_i dmid hset
        by_cases hk : k1 = k
        · subst hk
          have hv : v1 = v := by simpa [assocLookup] using hlook
          subst hv
          obtain ⟨p1, hdict, hval⟩ := setItem_plain_ok_strict vd d k1 v1 dmid () hs hset
          refine ⟨p1, ?_, hval⟩
          rw [updatePlain_ok_notMem vd tl dmid d1 u h k1 hnd.1, hdict]
          exact assocLookup_assocSet_self d.dict k1 p1
        · have hlook2 : assocLookup tl k = some v := by simpa [assocLookup, hk] using hlook
          have hsmid : dmid.suppress_exception = false :=
            (setItem_suppress vd d k1 (.plain v1) dmid (.ok ()) hset).trans hs
          exact ih dmid d1 u hsmid hnd.2 h k v hlook2

theorem validateEntries_lookup (vd : Validator) (sup : Bool) (l : List (String × Param)) :
    ∀ out, ParamsDict.validateEntries vd sup l = .ok out →
      ∀ k p, assocLookup l k = some p →
        ∃ r, (Param.resolve vd p none sup).2 = .ok r ∧ assocLookup out k = some r := by
  induction l with
  | nil =>
      intro out _ k p hlook
      simp [assocLookup] at hlook
  | cons hd tl ih =>
      intro out h k p hlook
      obtain ⟨k1, p1⟩ := hd
      simp only [ParamsDict.validateEntries] at h
      split at h
      · simp at h
      · rename_i q v1 hr
        split at h
        · simp at h
        · rename_i out1 htl
          injection h with h1
          subst h1
          by_cases hk : k1 = k
          · subst hk
            have hp : p = p1 := by simpa [assocLookup] using hlook.symm
            subst hp
            exact ⟨v1, by rw [hr], by simp [assocLookup]⟩
          · have hlook2 : assocLookup tl k = some p := by simpa [assocLookup, hk] using hlook
            obtain ⟨r, hres, hout⟩ := ih out1 htl k p hlook2
            exact ⟨r, hres, by simpa [assocLookup, hk] using hout⟩

theorem setItem_reject_strict (vd : Validator) (d : ParamsDict) (k : String) (p : Param)
    (j : JVal) (m : String) (hs : d.suppress_exception = false)
    (hl : assocLookup d.dict k = some p) (hvd : vd (.json j) p.schema = some m) :
    d.setItem vd k (.plain (.json j))
      = (d, .error (.invalidInputForParam k (.schemaValidation m))) := by
  have hres : Param.resolve vd p (some (.json j)) false = (p, .error (.schemaValidation m)) := by
    simp [Param.resolve, checkJson, Param.resolveChecked, Option.orElse, hvd]
  simp [ParamsDict.setItem, hl, hs, hres]

/-- C2: `DagParam.resolve(context)` returns the dag-run conf entry for the
name when the conf exists and contains it; otherwise the reference's own
default when it is not `NOTSET`; otherwise the context params entry when
present; otherwise it raises — in exactly that order. -/
theorem DagParam_resolve_precedence (dp : DagParam) (ctx : Context) :
    (∀ conf v, ctx.conf = some conf → assocLookup conf dp.name = some v →
       dp.resolve ctx = .ok v) ∧
    (∀ d, ctx.conf.bind (fun c => assocLookup c dp.name) = none → dp.default = some d →
       dp.resolve ctx = .ok d) ∧
    (∀ v, ctx.conf.bind (fun c => assocLookup c dp.name) = none → dp.default = none →
       ctx.params.bind (fun ps => assocLookup ps dp.name) = some v →
       dp.resolve ctx = .ok v) ∧
    (ctx.conf.bind (fun c => assocLookup c dp.name) = none → dp.default = none →
       ctx.params.bind (fun ps => assocLookup ps dp.name) = none →
       dp.resolve ctx = .error (.resolution dp.name)) := by
  refine ⟨?_, ?_, ?_, ?_⟩
  · intro conf v hc hv
    cases conf with
    | nil => simp [assocLookup] at hv
    | cons hd tl => simp [DagParam.resolve, hc, hv]
  · intro d hc hd
    cases hcc : ctx.conf with
    | none => simp [DagParam.resolve, hcc, hd]
    | some conf =>
        rw [hcc] at hc
        simp only [Option.some_bind] at hc
        cases conf with
        | nil => simp [DagParam.resolve, hcc, hd]
        | cons hd1 tl => simp [DagParam.resolve, hcc, hc, hd]
  · intro v hc hd hp
    cases hpp : ctx.params with
    | none => rw [hpp] at hp; simp at hp
    | some ps =>
        rw [hpp] at hp
        simp only [Option.some_bind] at hp
        cases hcc : ctx.conf with
        | none => simp [DagParam.resolve, hcc, hd, hpp, hp]
        | some conf =>
            rw [hcc] at hc
            simp only [Option.some_bind] at hc
            cases conf with
            | nil => simp [DagParam.resolve, hcc, hd, hpp, hp]
            | cons hd1 tl => simp [DagParam.resolve, hcc, hc, hd, hpp, hp]
  · intro hc hd hp
    have hpb : ctx.params.bind (fun ps => assocLookup ps dp.name) = none := hp
    cases hcc : ctx.conf with
    | none =>
        cases hpp : ctx.params with
        | none => simp [DagParam.resolve, hcc, hd, hpp]
        | some ps =>
            rw [hpp] at hpb
            simp only [Option.some_bind] at hpb
            simp [DagParam.resolve, hcc, hd, hpp, hpb]
    | some conf =>
        rw [hcc] at hc
        simp only [Option.some_bind] at hc
        cases hpp : ctx.params with
        | none =>
            cases conf with
            | nil => simp [DagParam.resolve, hcc, hd, hpp]
            | cons hd1 tl => simp [DagParam.resolve, hcc, hc, hd, hpp]
        | some ps =>
            rw [hpp] at hpb
            simp only [Option.some_bind] at hpb
            cases conf with
            | nil => simp [DagParam.resolve, hcc, hd, hpp, hpb]
            | cons hd1 tl => simp [DagParam.resolve, hcc, hc, hd, hpp, hpb]

/-- C3: `Param.resolve` with no candidate and an unset stored value returns
null in lenient mode and raises the missing-value error in strict mode;
and a final value (passed candidate or stored value) failing schema
validation yields null in lenient mode and the schema-validation error
carrying the validator message in strict mode. -/
theorem Param_resolve_error_modes (vd : Validator) (p : Param) :
    (p.value = none →
       Param.resolve vd p none true = (p, .ok (.json .null)) ∧
       Param.resolve vd p none false = (p, .error .missingValue)) ∧
    (∀ j m, vd (.json j) p.schema = some m →
       Param.resolve vd p (some (.json j)) true = (p, .ok (.json .null)) ∧
       Param.resolve vd p (some (.json j)) false = (p, .error (.schemaValidation m))) ∧
    (∀ sv m, p.value = some sv → vd sv p.schema = some m →
       Param.resolve vd p none true = (p, .ok (.json .null)) ∧
       Param.resolve vd p none false = (p, .error (.schemaValidation m))) := by
  refine ⟨?_, ?_, ?_⟩
  · intro hv
    constructor <;> simp [Param.resolve, Param.resolveChecked, Option.orElse, hv]
  · intro j m hm
    constructor <;>
      simp [Param.resolve, Param.resolveChecked, Option.orElse, checkJson, hm]
  · intro sv m hv hm
    constructor <;>
      simp [Param.resolve, Param.resolveChecked, Option.orElse, hv, hm]

/-- C6: for both `Param` and `ParamsDict`, `deserialize` raises the
version error exactly when the supplied version is strictly greater than
the current class version; an equal (or smaller) version proceeds to the
constructor. -/
theorem deserialize_version_gate :
    (∀ data version, Param.version < version →
       Param.deserialize data version
         = .error (.typeError "serialized version > class version")) ∧
    (∀ data version, version ≤ Param.version →
       Param.deserialize data version
         = Param.init data.value data.description data.schema) ∧
    (∀ data version, ParamsDict.version < version →
       ParamsDict.deserialize data version
         = .error (.typeError "serialized version > class version")) ∧
    (∀ data version, version ≤ ParamsDict.version →
       ParamsDict.deserialize data version = ParamsDict.init data false) := by
  refine ⟨?_, ?_, ?_, ?_⟩
  · intro data version h
    simp [Param.deserialize, h]
  · intro data version h
    simp [Param.deserialize, Nat.not_lt.mpr h]
  · intro data version h
    simp [ParamsDict.deserialize, h]
  · intro data version h
    simp [ParamsDict.deserialize, Nat.not_lt.mpr h]

/-- C7: deserializing the serialization of a `Param` built from a
JSON-serializable default at the current version reproduces the value,
description and schema. -/
theorem Param_serialize_roundtrip (j : JVal) (desc : Option String) (schema : JVal)
    (p : Param) (h : Param.init (some (.json j)) desc schema = .ok p) :
    Param.deserialize p.serialize Param.version = .ok p ∧
    p.value = some (.json j) ∧ p.description = desc ∧ p.schema = schema := by
  have hp := init_ok_inv (.json j) desc schema p h
  subst hp
  refine ⟨?_, rfl, rfl, rfl⟩
  simp [Param.deserialize, Param.serialize, Param.init, checkJson]

/-- C8: constructing a `Param` fails with the serialization error when the
default is not unset and not JSON-serializable; construction never
validates the default against the schema (it succeeds for a serializable
default under any schema); the schema argument defaults to an empty
mapping, and the modelled validator accepts any value against it. -/
theorem Param_init_no_schema_check :
    (∀ t desc schema, Param.init (some (.nonSerializable t)) desc schema
       = .error (.serialization (.nonSerializable t))) ∧
    (∀ j desc schema, Param.init (some (.json j)) desc schema
       = .ok { value := some (.json j), description := desc, schema := schema }) ∧
    (∀ j desc, Param.init (some (.json j)) desc
       = Param.init (some (.json j)) desc (.obj [])) ∧
    (∀ v, specValidator v (.obj []) = none) := by
  refine ⟨?_, ?_, ?_, ?_⟩
  · intro t desc schema
    simp [Param.init, checkJson]
  · intro j desc schema
    simp [Param.init, checkJson]
  · intro j desc
    rfl
  · intro v
    simp [specValidator, assocLookup]

/-- C9: a non-JSON-serializable candidate makes `Param.resolve` raise the
serialization error even in lenient mode; the lenient flag converts only
the missing-value and schema-validation failures into null. -/
theorem Param_resolve_lenient_keeps_serialization_error (vd : Validator) (p : Param)
    (t : Nat) :
    Param.resolve vd p (some (.nonSerializable t)) true
      = (p, .error (.serialization (.nonSerializable t))) ∧
    Param.resolve vd p (some (.nonSerializable t)) false
      = (p, .error (.serialization (.nonSerializable t))) := by
  constructor <;> simp [Param.resolve, checkJson]

/-- C4: a successful strict `Param.resolve` overwrites the stored value
with the resolved value (memoization); a failing one leaves the object
unchanged; and setting an existing schema-constrained key of a collection
to a violating value raises the error annotated with the key name (the
message contains the key) while the collection is left unchanged. -/
theorem Param_resolve_memoizes_and_setItem_atomic (vd : Validator) :
    (∀ (p : Param) (v : Option PyVal) (q : Param) (r : PyVal),
       Param.resolve vd p v false = (q, .ok r) → q.value = some r) ∧
    (∀ (p : Param) (v : Option PyVal) (q : Param) (e : PError),
       Param.resolve vd p v false = (q, .error e) → q = p) ∧
    (∀ (d : ParamsDict) (k : String) (p : Param) (j : JVal) (m : String),
       d.suppress_exception = false → assocLookup d.dict k = some p →
       vd (.json j) p.schema = some m →
       d.setItem vd k (.plain (.json j))
         = (d, .error (.invalidInputForParam k (.schemaValidation m))) ∧
       strContains (PError.msg (.invalidInputForParam k (.schemaValidation m))) k) := by
  refine ⟨?_, ?_, ?_⟩
  · intro p v q r h
    cases v with
    | some w =>
        obtain ⟨hq, hr, _⟩ := resolve_some_ok_strict vd p w q r h
        rw [hq, hr]
    | none =>
        cases hpv : p.value with
        | none =>
            exfalso
            simp [Param.resolve, Param.resolveChecked, Option.orElse, hpv] at h
        | some sv =>
            obtain ⟨hr, hq⟩ := resolve_stored_ok_strict vd p sv q r hpv h
            rw [hq, hr, hpv]
  · intro p v q e h
    cases v with
    | some w =>
        cases hc : checkJson w with
        | error e2 =>
            have heq : Param.resolve vd p (some w) false = (p, .error e2) := by
              simp [Param.resolve, hc]
            rw [heq] at h
            injection h with h1 h2
            exact h1.symm
        | ok u =>
            cases u
            cases hvd : vd w p.schema with
            | some m =>
                have heq : Param.resolve vd p (some w) false
                    = (p, .error (.schemaValidation m)) := by
                  simp [Param.resolve, hc, Param.resolveChecked, Option.orElse, hvd]
                rw [heq] at h
                injection h with h1 h2
                exact h1.symm
            | none =>
                have heq : Param.resolve vd p (some w) false
                    = ({ p with value := some w }, .ok w) := by
                  simp [Param.resolve, hc, Param.resolveChecked, Option.orElse, hvd]
                rw [heq] at h
                simp at h
    | none =>
        cases hpv : p.value with
        | none =>
            have heq : Param.resolve vd p none false = (p, .error .missingValue) := by
              simp [Param.resolve, Param.resolveChecked, Option.orElse, hpv]
            rw [heq] at h
            injection h with h1 h2
            exact h1.symm
        | some sv =>
            cases hvd : vd sv p.schema with
            | some m =>
                have heq : Param.resolve vd p none false
                    = (p, .error (.schemaValidation m)) := by
                  simp [Param.resolve, Param.resolveChecked, Option.orElse, hpv, hvd]
                rw [heq] at h
                injection h with h1 h2
                exact h1.symm
            | none =>
                have heq : Param.resolve vd p none false
                    = ({ p with value := some sv }, .ok sv) := by
                  simp [Param.resolve, Param.resolveChecked, Option.orElse, hpv, hvd]
                rw [heq] at h
                simp at h
  · intro d k p j m hs hl hvd
    refine ⟨setItem_reject_strict vd d k p j m hs hl hvd, ?_⟩
    exact ⟨"Invalid input for param ", ": " ++ m, by simp [PError.msg, String.append_assoc]⟩

/-- C5: merging another `ParamsDict` adopts its stored `Param` objects as
they are (schema and description included) without consulting the
validator, while merging a plain mapping goes through `setItem` and
re-validates each value against the existing entry's schema. -/
theorem ParamsDict_update_adopts_or_revalidates (vd : Validator) :
    (∀ vd2 d other, ParamsDict.update vd d (.pd other) = ParamsDict.update vd2 d (.pd other)) ∧
    (∀ d other k p, (other.dict.map Prod.fst).Nodup → assocLookup other.dict k = some p →
       (ParamsDict.update vd d (.pd other)).2 = .ok () ∧
       assocLookup (ParamsDict.update vd d (.pd other)).1.dict k = some p) ∧
    (∀ d k p j m, assocLookup d.dict k = some p → d.suppress_exception = false →
       vd (.json j) p.schema = some m →
       ParamsDict.update vd d (.plain [(k, .json j)])
         = (d, .error (.invalidInputForParam k (.schemaValidation m)))) := by
  refine ⟨?_, ?_, ?_⟩
  · intro vd2 d other
    rfl
  · intro d other k p hnd hlook
    refine ⟨rfl, ?_⟩
    simp only [ParamsDict.update, ParamsDict.updateParamsDict]
    exact foldlSet_lookup_mem other.dict d.dict k p hnd hlook
  · intro d k p j m hl hs hvd
    simp [ParamsDict.update, ParamsDict.updatePlain, setItem_reject_strict vd d k p j m hs hl hvd]

/-- C10: with `suppress_exception` set, assigning a schema-violating value
to an existing schema-constrained key raises no error yet leaves the
stored value untouched (the collection is unchanged), so a subsequent item
access returns the old value. -/
theorem ParamsDict_setItem_lenient_silent (vd : Validator) (d : ParamsDict) (k : String)
    (p : Param) (sv : PyVal) (j : JVal) (m : String)
    (hs : d.suppress_exception = true) (hl : assocLookup d.dict k = some p)
    (hpv : p.value = some sv) (hvd : vd (.json j) p.schema = some m) :
    d.setItem vd k (.plain (.json j)) = (d, .ok ()) ∧
    (vd sv p.schema = none → d.getItem vd k = (d, .ok sv)) := by
  have hset : assocSet d.dict k p = d.dict := assocSet_lookup_self d.dict k p hl
  have hd : ({ dict := d.dict, suppress_exception := true } : ParamsDict) = d := by
    cases d with
    | mk dd ds => cases hs; rfl
  constructor
  · have hres : Param.resolve vd p (some (.json j)) true = (p, .ok (.json .null)) := by
      simp [Param.resolve, checkJson, Param.resolveChecked, Option.orElse, hvd]
    simp [ParamsDict.setItem, hl, hs, hres, hset, hd]
  · intro hok
    have hres : Param.resolve vd p none true = (p, .ok sv) := by
      simp [Param.resolve, Param.resolveChecked, Option.orElse, hpv, hok, Param_eta p sv hpv]
    simp [ParamsDict.getItem, hl, hs, hres, hset, hd]

theorem mergedParams_suppress (wf st : ParamsDict) (sup : Bool) :
    (mergedParams wf st sup).suppress_exception = sup := by
  unfold mergedParams
  split <;> rfl

theorem mergedParams_lookup_st (wf st : ParamsDict) (sup : Bool) (k : String) (p : Param)
    (hnd : (st.dict.map Prod.fst).Nodup) (hlook : assocLookup st.dict k = some p) :
    assocLookup (mergedParams wf st sup).dict k = some p := by
  have hne : st.dict.isEmpty = false := by
    cases hd : st.dict with
    | nil => rw [hd] at hlook; simp [assocLookup] at hlook
    | cons a b => rfl
  unfold mergedParams
  simp only [hne, Bool.false_eq_true, if_false, ParamsDict.updateParamsDict]
  exact foldlSet_lookup_mem st.dict _ k p hnd hlook

theorem process_params_run_ok (vd : Validator) (wf st : ParamsDict)
    (conf : List (String × PyVal)) (sup : Bool) (p3 : ParamsDict) (u : Unit)
    (h : conf.isEmpty = false)
    (hu : ParamsDict.updatePlain vd (mergedParams wf st sup) conf = (p3, .ok u)) :
    process_params vd wf st (some conf) true sup = p3.validate vd := by
  cases u
  simp only [mergedParams] at hu
  simp [process_params, h, hu]

theorem process_params_run_error (vd : Validator) (wf st : ParamsDict)
    (conf : List (String × PyVal)) (sup : Bool) (d1 : ParamsDict) (e : PError)
    (h : conf.isEmpty = false)
    (hu : ParamsDict.updatePlain vd (mergedParams wf st sup) conf = (d1, .error e)) :
    process_params vd wf st (some conf) true sup = .error e := by
  simp only [mergedParams] at hu
  simp [process_params, h, hu]

theorem process_params_none_eq (vd : Validator) (wf st : ParamsDict) (flag sup : Bool) :
    process_params vd wf st none flag sup = (mergedParams wf st sup).validate vd := by
  simp [process_params, mergedParams]

theorem process_params_emptyconf_eq (vd : Validator) (wf st : ParamsDict) (flag sup : Bool) :
    process_params vd wf st (some []) flag sup = (mergedParams wf st sup).validate vd := by
  simp [process_params, mergedParams]

theorem process_params_flagfalse_eq (vd : Validator) (wf st : ParamsDict)
    (dconf : Option (List (String × PyVal))) (sup : Bool) :
    process_params vd wf st dconf false sup = (mergedParams wf st sup).validate vd := by
  simp [process_params, mergedParams]

/-- C1: in the merge pipeline, for a key present in several sources the
step-level (task) value overrides the workflow (dag) value, and the
dag-run configuration value overrides both exactly when the override flag
is set and the configuration is non-empty; with the flag unset the dag-run
configuration is ignored entirely, even when non-empty. -/
theorem process_params_precedence (vd : Validator) :
    (∀ (wf st : ParamsDict) (conf : List (String × PyVal)) (k : String) (v : PyVal)
       (out : List (String × PyVal)),
       (conf.map Prod.fst).Nodup → assocLookup conf k = some v →
       process_params vd wf st (some conf) true false = .ok out →
       assocLookup out k = some v) ∧
    (∀ (wf st : ParamsDict) (dconf : Option (List (String × PyVal))) (sup : Bool),
       process_params vd wf st dconf false sup = process_params vd wf st none false sup) ∧
    (∀ (wf st : ParamsDict) (k : String) (p : Param) (out : List (String × PyVal))
       (flag sup : Bool),
       (st.dict.map Prod.fst).Nodup → assocLookup st.dict k = some p →
       process_params vd wf st none flag sup = .ok out →
       ∃ r, (Param.resolve vd p none sup).2 = .ok r ∧ assocLookup out k = some r) ∧
    (∀ (wf st : ParamsDict) (conf : List (String × PyVal)) (k : String) (p : Param)
       (out : List (String × PyVal)) (sup : Bool),
       (st.dict.map Prod.fst).Nodup → assocLookup st.dict k = some p →
       k ∉ conf.map Prod.fst →
       process_params vd wf st (some conf) true sup = .ok out →
       ∃ r, (Param.resolve vd p none sup).2 = .ok r ∧ assocLookup out k = some r) := by
  refine ⟨?_, ?_, ?_, ?_⟩
  · intro wf st conf k v out hnd hlook hok
    have hce : conf.isEmpty = false := by
      cases hd : conf with
      | nil => rw [hd] at hlook; simp [assocLookup] at hlook
      | cons a b => rfl
    cases hup : ParamsDict.updatePlain vd (mergedParams wf st false) conf with
    | mk p3 r =>
        cases r with
        | error e =>
            rw [process_params_run_error vd wf st conf false p3 e hce hup] at hok
            simp at hok
        | ok u =>
            cases u
            rw [process_params_run_ok vd wf st conf false p3 () hce hup] at hok
            have hsupm : (mergedParams wf st false).suppress_exception = false :=
              mergedParams_suppress wf st false
            obtain ⟨p1, hl3, hv1⟩ := updatePlain_ok_lookup_strict vd conf
              (mergedParams wf st false) p3 () hsupm hnd hup k v hlook
            simp only [ParamsDict.validate] at hok
            rw [updatePlain_suppress vd conf (mergedParams wf st false) p3 (.ok ()) hup,
              hsupm] at hok
            obtain ⟨r, hres, hout⟩ := validateEntries_lookup vd false p3.dict out hok k p1 hl3
            cases hre : Param.resolve vd p1 none false with
            | mk q rr =>
                rw [hre] at hres
                have hrr : rr = .ok r := hres
                subst hrr
                obtain ⟨hrv, _⟩ := resolve_stored_ok_strict vd p1 v q r hv1 hre
                rw [hout, hrv]
  · intro wf st dconf sup
    rw [process_params_flagfalse_eq, process_params_flagfalse_eq]
  · intro wf st k p out flag sup hnd hlook hok
    rw [process_params_none_eq] at hok
    simp only [ParamsDict.validate] at hok
    rw [mergedParams_suppress] at hok
    exact validateEntries_lookup vd sup _ out hok k p
      (mergedParams_lookup_st wf st sup k p hnd hlook)
  · intro wf st conf k p out sup hnd hlook hmem hok
    cases hd : conf with
    | nil =>
        subst hd
        rw [process_params_emptyconf_eq] at hok
        simp only [ParamsDict.validate] at hok
        rw [mergedParams_suppress] at hok
        exact validateEntries_lookup vd sup _ out hok k p
          (mergedParams_lookup_st wf st sup k p hnd hlook)
    | cons a b =>
        subst hd
        have hce : (a :: b).isEmpty = false := rfl
        cases hup : ParamsDict.updatePlain vd (mergedParams wf st sup) (a :: b) with
        | mk p3 r =>
            cases r with
            | error e =>
                rw [process_params_run_error vd wf st (a :: b) sup p3 e hce hup] at hok
                simp at hok
            | ok u =>
                cases u
                rw [process_params_run_ok vd wf st (a :: b) sup p3 () hce hup] at hok
                have hl3 := updatePlain_ok_notMem vd (a :: b) (mergedParams wf st sup)
                  p3 () hup k hmem
                rw [mergedParams_lookup_st wf st sup k p hnd hlook] at hl3
                simp only [ParamsDict.validate] at hok
                rw [updatePlain_suppress vd (a :: b) (mergedParams wf st sup) p3 (.ok ()) hup,
                  mergedParams_suppress] at hok
                exact validateEntries_lookup vd sup p3.dict out hok k p hl3

/-- Witness for C1: the spec example, `workflow = x:1`, `step = x:2`,
`runConfig = x:3`, exercising every conjunct at concrete inputs. -/
theorem process_params_precedence_witness :
    assocLookup [("x", PyVal.json (.num 3))] "x" = some (PyVal.json (.num 3)) ∧
    process_params specValidator
        ⟨[("x", ⟨some (.json (.num 1)), none, .obj []⟩)], false⟩
        ⟨[("x", ⟨some (.json (.num 2)), none, .obj []⟩)], false⟩
        (some [("x", .json (.num 3))]) false false
      = process_params specValidator
        ⟨[("x", ⟨some (.json (.num 1)), none, .obj []⟩)], false⟩
        ⟨[("x", ⟨some (.json (.num 2)), none, .obj []⟩)], false⟩
        none false false ∧
    (∃ r, (Param.resolve specValidator ⟨some (.json (.num 2)), none, .obj []⟩ none false).2
        = .ok r ∧ assocLookup [("x", PyVal.json (.num 2))] "x" = some r) ∧
    (∃ r, (Param.resolve specValidator ⟨some (.json (.num 2)), none, .obj []⟩ none false).2
        = .ok r ∧
        assocLookup [("x", PyVal.json (.num 2)), ("y", PyVal.json (.num 9))] "x" = some r) := by
  refine ⟨?_, ?_, ?_, ?_⟩
  · exact (process_params_precedence specValidator).1
      ⟨[("x", ⟨some (.json (.num 1)), none, .obj []⟩)], false⟩
      ⟨[("x", ⟨some (.json (.num 2)), none, .obj []⟩)], false⟩
      [("x", .json (.num 3))] "x" (.json (.num 3)) [("x", .json (.num 3))]
      (by simp) rfl rfl
  · exact (process_params_precedence specValidator).2.1
      ⟨[("x", ⟨some (.json (.num 1)), none, .obj []⟩)], false⟩
      ⟨[("x", ⟨some (.json (.num 2)), none, .obj []⟩)], false⟩
      (some [("x", .json (.num 3))]) false
  · exact (process_params_precedence specValidator).2.2.1
      ⟨[("x", ⟨some (.json (.num 1)), none, .obj []⟩)], false⟩
      ⟨[("x", ⟨some (.json (.num 2)), none, .obj []⟩)], false⟩
      "x" ⟨some (.json (.num 2)), none, .obj []⟩ [("x", .json (.num 2))] true false
      (by simp) rfl rfl
  · exact (process_params_precedence specValidator).2.2.2
      ⟨[("x", ⟨some (.json (.num 1)), none, .obj []⟩)], false⟩
      ⟨[("x", ⟨some (.json (.num 2)), none, .obj []⟩)], false⟩
      [("y", .json (.num 9))] "x" ⟨some (.json (.num 2)), none, .obj []⟩
      [("x", .json (.num 2)), ("y", .json (.num 9))] false
      (by simp) rfl (by simp) rfl

/-- Witness for C2: the spec example with conf `p:A`, default `B`, params
`p:C`, and progressively removed tiers. -/
theorem DagParam_resolve_precedence_witness :
    DagParam.resolve ⟨"p", some (.json (.str "B"))⟩
        ⟨some [("p", .json (.str "A"))], some [("p", .json (.str "C"))]⟩
      = .ok (.json (.str "A")) ∧
    DagParam.resolve ⟨"p", some (.json (.str "B"))⟩ ⟨none, some [("p", .json (.str "C"))]⟩
      = .ok (.json (.str "B")) ∧
    DagParam.resolve ⟨"p", none⟩ ⟨none, some [("p", .json (.str "C"))]⟩
      = .ok (.json (.str "C")) ∧
    DagParam.resolve ⟨"p", none⟩ ⟨none, none⟩ = .error (.resolution "p") := by
  refine ⟨?_, ?_, ?_, ?_⟩
  · exact (DagParam_resolve_precedence ⟨"p", some (.json (.str "B"))⟩
      ⟨some [("p", .json (.str "A"))], some [("p", .json (.str "C"))]⟩).1
      [("p", .json (.str "A"))] (.json (.str "A")) rfl rfl
  · exact (DagParam_resolve_precedence ⟨"p", some (.json (.str "B"))⟩
      ⟨none, some [("p", .json (.str "C"))]⟩).2.1 (.json (.str "B")) rfl rfl
  · exact (DagParam_resolve_precedence ⟨"p", none⟩
      ⟨none, some [("p", .json (.str "C"))]⟩).2.2.1 (.json (.str "C")) rfl rfl rfl
  · exact (DagParam_resolve_precedence ⟨"p", none⟩ ⟨none, none⟩).2.2.2 rfl rfl rfl

/-- Witness for C3: an unset `Param`, a rejected candidate against an
integer schema, and a rejected stored value, in both modes. -/
theorem Param_resolve_error_modes_witness :
    (Param.resolve specValidator ⟨none, none, .obj []⟩ none true
        = (⟨none, none, .obj []⟩, .ok (.json .null)) ∧
     Param.resolve specValidator ⟨none, none, .obj []⟩ none false
        = (⟨none, none, .obj []⟩, .error .missingValue)) ∧
    (Param.resolve specValidator ⟨some (.json (.num 1)), none, .obj [("type", .str "integer")]⟩
        (some (.json (.str "x"))) true
        = (⟨some (.json (.num 1)), none, .obj [("type", .str "integer")]⟩, .ok (.json .null)) ∧
     Param.resolve specValidator ⟨some (.json (.num 1)), none, .obj [("type", .str "integer")]⟩
        (some (.json (.str "x"))) false
        = (⟨some (.json (.num 1)), none, .obj [("type", .str "integer")]⟩,
           .error (.schemaValidation "value is not of type integer"))) ∧
    (Param.resolve specValidator ⟨some (.json (.str "x")), none, .obj [("type", .str "integer")]⟩
        none true
        = (⟨some (.json (.str "x")), none, .obj [("type", .str "integer")]⟩, .ok (.json .null)) ∧
     Param.resolve specValidator ⟨some (.json (.str "x")), none, .obj [("type", .str "integer")]⟩
        none false
        = (⟨some (.json (.str "x")), none, .obj [("type", .str "integer")]⟩,
           .error (.schemaValidation "value is not of type integer"))) := by
  refine ⟨?_, ?_, ?_⟩
  · exact (Param_resolve_error_modes specValidator ⟨none, none, .obj []⟩).1 rfl
  · exact (Param_resolve_error_modes specValidator
      ⟨some (.json (.num 1)), none, .obj [("type", .str "integer")]⟩).2.1
      (.str "x") "value is not of type integer" rfl
  · exact (Param_resolve_error_modes specValidator
      ⟨some (.json (.str "x")), none, .obj [("type", .str "integer")]⟩).2.2
      (.json (.str "x")) "value is not of type integer" rfl rfl

/-- Witness for C4: memoization of a successful strict resolve, identity
on a failing one, and the annotated rejection with unchanged collection. -/
theorem Param_resolve_memoizes_and_setItem_atomic_witness :
    (⟨some (.json (.num 2)), none, .obj []⟩ : Param).value = some (.json (.num 2)) ∧
    (⟨some (.json (.num 1)), none, .obj [("type", .str "integer")]⟩ : Param)
      = ⟨some (.json (.num 1)), none, .obj [("type", .str "integer")]⟩ ∧
    (ParamsDict.setItem specValidator
        ⟨[("a", ⟨some (.json (.num 1)), none, .obj [("type", .str "integer")]⟩)], false⟩
        "a" (.plain (.json (.str "x")))
      = (⟨[("a", ⟨some (.json (.num 1)), none, .obj [("type", .str "integer")]⟩)], false⟩,
         .error (.invalidInputForParam "a" (.schemaValidation "value is not of type integer"))) ∧
     strContains
       (PError.msg (.invalidInputForParam "a" (.schemaValidation "value is not of type integer")))
       "a") := by
  refine ⟨?_, ?_, ?_⟩
  · exact (Param_resolve_memoizes_and_setItem_atomic specValidator).1
      ⟨some (.json (.num 1)), none, .obj []⟩ (some (.json (.num 2)))
      ⟨some (.json (.num 2)), none, .obj []⟩ (.json (.num 2)) rfl
  · exact (Param_resolve_memoizes_and_setItem_atomic specValidator).2.1
      ⟨some (.json (.num 1)), none, .obj [("type", .str "integer")]⟩
      (some (.json (.str "x")))
      ⟨some (.json (.num 1)), none, .obj [("type", .str "integer")]⟩
      (.schemaValidation "value is not of type integer") rfl
  · exact (Param_resolve_memoizes_and_setItem_atomic specValidator).2.2
      ⟨[("a", ⟨some (.json (.num 1)), none, .obj [("type", .str "integer")]⟩)], false⟩
      "a" ⟨some (.json (.num 1)), none, .obj [("type", .str "integer")]⟩
      (.str "x") "value is not of type integer" rfl rfl rfl

/-- Witness for C5: adoption is validator-independent and identity
preserving; a plain-mapping merge re-validates and rejects. -/
theorem ParamsDict_update_adopts_or_revalidates_witness :
    ParamsDict.update specValidator (⟨[], false⟩ : ParamsDict)
        (.pd ⟨[("a", ⟨some (.json (.num 1)), none, .obj [("type", .str "integer")]⟩)], false⟩)
      = ParamsDict.update (fun _ _ => some "reject everything") (⟨[], false⟩ : ParamsDict)
        (.pd ⟨[("a", ⟨some (.json (.num 1)), none, .obj [("type", .str "integer")]⟩)], false⟩) ∧
    ((ParamsDict.update specValidator (⟨[], false⟩ : ParamsDict)
        (.pd ⟨[("a", ⟨some (.json (.num 1)), none, .obj [("type", .str "integer")]⟩)], false⟩)).2
      = .ok () ∧
     assocLookup (ParamsDict.update specValidator (⟨[], false⟩ : ParamsDict)
        (.pd ⟨[("a", ⟨some (.json (.num 1)), none, .obj [("type", .str "integer")]⟩)],
          false⟩)).1.dict "a"
      = some ⟨some (.json (.num 1)), none, .obj [("type", .str "integer")]⟩) ∧
    ParamsDict.update specValidator
        ⟨[("a", ⟨some (.json (.num 1)), none, .obj [("type", .str "integer")]⟩)], false⟩
        (.plain [("a", .json (.str "x"))])
      = (⟨[("a", ⟨some (.json (.num 1)), none, .obj [("type", .str "integer")]⟩)], false⟩,
         .error (.invalidInputForParam "a"
           (.schemaValidation "value is not of type integer"))) := by
  refine ⟨?_, ?_, ?_⟩
  · exact (ParamsDict_update_adopts_or_revalidates specValidator).1
      (fun _ _ => some "reject everything") ⟨[], false⟩
      ⟨[("a", ⟨some (.json (.num 1)), none, .obj [("type", .str "integer")]⟩)], false⟩
  · exact (ParamsDict_update_adopts_or_revalidates specValidator).2.1
      ⟨[], false⟩
      ⟨[("a", ⟨some (.json (.num 1)), none, .obj [("type", .str "integer")]⟩)], false⟩
      "a" ⟨some (.json (.num 1)), none, .obj [("type", .str "integer")]⟩ (by simp) rfl
  · exact (ParamsDict_update_adopts_or_revalidates specValidator).2.2
      ⟨[("a", ⟨some (.json (.num 1)), none, .obj [("type", .str "integer")]⟩)], false⟩
      "a" ⟨some (.json (.num 1)), none, .obj [("type", .str "integer")]⟩
      (.str "x") "value is not of type integer" rfl rfl rfl

/-- Witness for C6: version 2 is rejected and version 1 accepted, for both
components. -/
theorem deserialize_version_gate_witness :
    Param.deserialize ⟨some (.json (.num 5)), some "d", .obj []⟩ 2
      = .error (.typeError "serialized version > class version") ∧
    Param.deserialize ⟨some (.json (.num 5)), some "d", .obj []⟩ 1
      = Param.init (some (.json (.num 5))) (some "d") (.obj []) ∧
    ParamsDict.deserialize [("a", .json (.num 1))] 2
      = .error (.typeError "serialized version > class version") ∧
    ParamsDict.deserialize [("a", .json (.num 1))] 1
      = ParamsDict.init [("a", .json (.num 1))] false := by
  refine ⟨?_, ?_, ?_, ?_⟩
  · exact deserialize_version_gate.1 ⟨some (.json (.num 5)), some "d", .obj []⟩ 2 (by decide)
  · exact deserialize_version_gate.2.1 ⟨some (.json (.num 5)), some "d", .obj []⟩ 1 (by decide)
  · exact deserialize_version_gate.2.2.1 [("a", .json (.num 1))] 2 (by decide)
  · exact deserialize_version_gate.2.2.2 [("a", .json (.num 1))] 1 (by decide)

/-- Witness for C7: round trip of a concrete `Param` with value 5,
description and an integer schema. -/
theorem Param_serialize_roundtrip_witness :
    Param.deserialize
        (Param.serialize ⟨some (.json (.num 5)), some "d", .obj [("type", .str "integer")]⟩)
        Param.version
      = .ok ⟨some (.json (.num 5)), some "d", .obj [("type", .str "integer")]⟩ ∧
    (⟨some (.json (.num 5)), some "d", .obj [("type", .str "integer")]⟩ : Param).value
      = some (.json (.num 5)) ∧
    (⟨some (.json (.num 5)), some "d", .obj [("type", .str "integer")]⟩ : Param).description
      = some "d" ∧
    (⟨some (.json (.num 5)), some "d", .obj [("type", .str "integer")]⟩ : Param).schema
      = .obj [("type", .str "integer")] :=
  Param_serialize_roundtrip (.num 5) (some "d") (.obj [("type", .str "integer")])
    ⟨some (.json (.num 5)), some "d", .obj [("type", .str "integer")]⟩ rfl

/-- Witness for C10: a lenient collection silently keeps the old value 1
after the rejected assignment of a string to an integer-schema key. -/
theorem ParamsDict_setItem_lenient_silent_witness :
    ParamsDict.setItem specValidator
        ⟨[("a", ⟨some (.json (.num 1)), none, .obj [("type", .str "integer")]⟩)], true⟩
        "a" (.plain (.json (.str "x")))
      = (⟨[("a", ⟨some (.json (.num 1)), none, .obj [("type", .str "integer")]⟩)], true⟩,
         .ok ()) ∧
    ParamsDict.getItem specValidator
        ⟨[("a", ⟨some (.json (.num 1)), none, .obj [("type", .str "integer")]⟩)], true⟩ "a"
      = (⟨[("a", ⟨some (.json (.num 1)), none, .obj [("type", .str "integer")]⟩)], true⟩,
         .ok (.json (.num 1))) := by
  refine ⟨?_, ?_⟩
  · exact (ParamsDict_setItem_lenient_silent specValidator
      ⟨[("a", ⟨some (.json (.num 1)), none, .obj [("type", .str "integer")]⟩)], true⟩
      "a" ⟨some (.json (.num 1)), none, .obj [("type", .str "integer")]⟩
      (.json (.num 1)) (.str "x") "value is not of type integer" rfl rfl rfl rfl).1
  · exact (ParamsDict_setItem_lenient_silent specValidator
      ⟨[("a", ⟨some (.json (.num 1)), none, .obj [("type", .str "integer")]⟩)], true⟩
      "a" ⟨some (.json (.num 1)), none, .obj [("type", .str "integer")]⟩
      (.json (.num 1)) (.str "x") "value is not of type integer" rfl rfl rfl rfl).2 rfl

end Airflow
